import Mathlib

set_option linter.unusedVariables false

/-!
Shallow embedding of the persistence layer (`db.py`) of an anonymous-chat
Telegram bot: the `users`, `muted_users`, `chat_queue`, `chat_connections`,
`payments` and `subscriptions` tables, and the operations on them that the
verified properties concern.

Conventions of the embedding:
* every table is a list of row structures inside one `DB` state value;
* each Python `async def` that touches the database becomes a pure Lean
  function from a `DB` (plus an explicit `now : Int` clock where the source
  reads the wall clock, and an explicit parameter where the source draws
  randomness) to its return value paired with the successor `DB`;
* timestamps are integers counting seconds; `timedelta(days = d)` is
  `d * 86400` seconds and `timedelta(minutes = m)` is `m * 60` seconds;
* `NUMERIC(10,2)` money columns hold exact decimal numbers and are only
  ever added and compared, so they are modelled as integers (the unit is
  irrelevant to every verified property);
* SQL `SELECT ... WHERE` single-row fetches become `List.find?`, `UPDATE`
  becomes `List.map` guarded on the row condition, `DELETE` becomes
  `List.filter` with the negated condition, `INSERT` appends;
* storage-level failures (connection loss) are not modelled: the `try`
  blocks in the source only convert those into error returns.
-/

/-- The columns of the `users` table that the verified operations read or
write.  `created_at` is optional because the column is nullable; rows
inserted by `get_or_create_user` always set it. -/
structure UserRow where
  user_id : Int
  username : Option String
  name : Option String
  token : Option String
  is_premium : Bool
  balance : Int
  total_deposited : Int
  referral_code : Option String
  referral_by : Option Int
  created_at : Option Int
deriving DecidableEq

/-- One row of the `muted_users` table (`user_id` is the primary key). -/
structure MutedRow where
  user_id : Int
  muted_until : Int
  reason : Option String
deriving DecidableEq

/-- One row of the `chat_connections` table: an active chat session between
`user1_id` and `user2_id` (stored ordered, looked up from either side). -/
structure ChatConn where
  user1_id : Int
  user2_id : Int
deriving DecidableEq

/-- One row of the `payments` table. -/
structure PaymentRow where
  id : Nat
  user_id : Int
  amount : Int
  method : String
  status : String
  transaction_id : Option String
  merchant_data : Option String
deriving DecidableEq

/-- One row of the `subscriptions` table. -/
structure SubRow where
  id : Nat
  user_id : Int
  plan : String
  start_date : Int
  end_date : Int
  is_active : Bool
deriving DecidableEq

/-- The database state: one list per table, plus the next value of each
`SERIAL` id sequence. -/
structure DB where
  users : List UserRow
  muted_users : List MutedRow
  chat_queue : List Int
  chat_connections : List ChatConn
  payments : List PaymentRow
  subscriptions : List SubRow
  next_payment_id : Nat
  next_subscription_id : Nat
deriving DecidableEq

/-- A freshly initialised database: all tables empty. -/
def emptyDB : DB := ⟨[], [], [], [], [], [], 1, 1⟩

/-- `timedelta(days = d)` in seconds. -/
def days (d : Int) : Int := d * 86400

/-- `timedelta(minutes = m)` in seconds. -/
def minutes (m : Int) : Int := m * 60

/-- Python truthiness of a nullable BIGINT column (`if row['referral_by']:`):
`NULL` and `0` are falsy, every other integer is truthy. -/
def intTruthy : Option Int → Bool
  | none => false
  | some v => v ≠ 0

/-- The `created_at` freshness test of `process_referral`: truthy
`created_at` more than one minute before `now` marks the account as
pre-existing (`datetime.now() - created_at > timedelta(minutes=1)`). -/
def staleCreation (now : Int) : Option Int → Bool
  | some t => now - t > minutes 1
  | none => false

/-! ## Chat queue and session operations (`db.py`) -/

/-- Does this session row involve `uid` (the `WHERE user1_id = $1 OR
user2_id = $1` condition)? -/
def touches (c : ChatConn) (uid : Int) : Prop :=
  c.user1_id = uid ∨ c.user2_id = uid

instance (c : ChatConn) (uid : Int) : Decidable (touches c uid) := by
  unfold touches; infer_instance

/-- The active session rows involving `uid`. -/
def sessionsOf (s : DB) (uid : Int) : List ChatConn :=
  s.chat_connections.filter (fun c => touches c uid)

/-- `add_to_chat_queue(pool, user_id)`: reject with `already_in_chat` if the
user appears in any `chat_connections` row, reject with `already_in_queue`
if already queued, otherwise insert into `chat_queue`. -/
def add_to_chat_queue (s : DB) (uid : Int) : (Bool × String) × DB :=
  if s.chat_connections.any (fun c => touches c uid) then
    ((false, "already_in_chat"), s)
  else if s.chat_queue.any (fun x => x = uid) then
    ((false, "already_in_queue"), s)
  else
    ((true, "added"), { s with chat_queue := s.chat_queue ++ [uid] })

/-- `find_chat_partner(pool, user_id)`: pick one row of `chat_queue` other
than the caller (`ORDER BY RANDOM() LIMIT 1` — modelled by the extra
parameter `r` indexing into the candidate rows, so that every candidate is
the selected one for some `r`); if one exists, delete both users from the
queue and insert a `chat_connections` row `(caller, partner)`. -/
def find_chat_partner (s : DB) (uid : Int) (r : Nat) : (Bool × Option Int) × DB :=
  let candidates := s.chat_queue.filter (fun x => ¬ x = uid)
  match candidates.get? (r % candidates.length) with
  | some pid =>
      ((true, some pid),
        { s with
            chat_queue := s.chat_queue.filter (fun x => ¬ (x = uid ∨ x = pid)),
            chat_connections := s.chat_connections ++ [⟨uid, pid⟩] })
  | none => ((false, none), s)

/-- The `CASE WHEN user1_id = $1 THEN user2_id ELSE user1_id END`
projection: the other party of a session row, seen from `uid`. -/
def partnerIn (c : ChatConn) (uid : Int) : Int :=
  if c.user1_id = uid then c.user2_id else c.user1_id

/-- The deletion condition of `end_chat`: the row joins `uid` and `pid`, in
either orientation. -/
def betweenPair (d : ChatConn) (uid pid : Int) : Prop :=
  (d.user1_id = uid ∧ d.user2_id = pid) ∨ (d.user1_id = pid ∧ d.user2_id = uid)

instance (d : ChatConn) (uid pid : Int) : Decidable (betweenPair d uid pid) := by
  unfold betweenPair
  infer_instance

/-- `get_chat_partner(pool, user_id)`: the `CASE WHEN user1_id = $1 THEN
user2_id ELSE user1_id END` lookup over the session row involving `uid`. -/
def get_chat_partner (s : DB) (uid : Int) : Option Int :=
  match s.chat_connections.find? (fun c => touches c uid) with
  | some c => some (partnerIn c uid)
  | none => none

/-- `end_chat(pool, user_id)`: look up the partner; if a session exists,
delete the connection in both orientations and return `(true, partner)`,
otherwise return `(false, none)` and change nothing. -/
def end_chat (s : DB) (uid : Int) : (Bool × Option Int) × DB :=
  match s.chat_connections.find? (fun c => touches c uid) with
  | some c =>
      let pid := partnerIn c uid
      let remaining := s.chat_connections.filter (fun d => ¬ betweenPair d uid pid)
      ((true, some pid), { s with chat_connections := remaining })
  | none => ((false, none), s)

/-- `remove_from_chat_queue(pool, user_id)`: unconditional `DELETE`. -/
def remove_from_chat_queue (s : DB) (uid : Int) : DB :=
  { s with chat_queue := s.chat_queue.filter (fun x => ¬ x = uid) }

/-! ## Pairing call sequences -/

/-- One call to the pairing layer: join the queue, look for a partner
(`r` is the randomness consumed by `find_chat_partner`), end the chat, or
leave the queue. -/
inductive ChatCall where
  | join (uid : Int)
  | findp (uid : Int) (r : Nat)
  | endc (uid : Int)
  | leave (uid : Int)
deriving DecidableEq

/-- Apply one pairing call to the state (return values discarded). -/
def applyCall (s : DB) : ChatCall → DB
  | .join uid => (add_to_chat_queue s uid).2
  | .findp uid r => (find_chat_partner s uid r).2
  | .endc uid => (end_chat s uid).2
  | .leave uid => remove_from_chat_queue s uid

/-- Run a sequence of pairing calls from a state. -/
def runCalls (s : DB) (calls : List ChatCall) : DB :=
  calls.foldl applyCall s

/-- Is `uid` currently a party to some active session? -/
def inSessionB (s : DB) (uid : Int) : Bool :=
  s.chat_connections.any (fun c => touches c uid)

/-- A call sequence is guarded when every `findp` call is made by a user who
is not currently a party to a session — the discipline the bot's
`/find_chat` handler follows by only calling `find_chat_partner` after a
successful `add_to_chat_queue`. -/
def guardedFrom (s : DB) : List ChatCall → Bool
  | [] => true
  | c :: rest =>
      (match c with
       | .findp uid _ => !(inSessionB s uid)
       | _ => true) && guardedFrom (applyCall s c) rest

/-- The pairing exclusivity invariant: every account is a party to at most
one active session, no queued account is a party to a session, and the
queue holds at most one entry per account. -/
def ChatInvariant (s : DB) : Prop :=
  (∀ uid : Int, (sessionsOf s uid).length ≤ 1) ∧
  (∀ uid ∈ s.chat_queue, sessionsOf s uid = []) ∧
  s.chat_queue.Nodup

/-! ## Ledger / balance operations (`db.py`) -/

/-- `update_user_balance(pool, user_id, amount, add_to_total)`:
`balance += amount` on the matching `users` row; when `add_to_total` is set,
also `total_deposited += amount`.  Returns `True` on success (the `except`
branch only catches storage failures, which are not modelled). -/
def update_user_balance (s : DB) (uid : Int) (amount : Int) (add_to_total : Bool) :
    Bool × DB :=
  let users := s.users.map (fun u =>
    if u.user_id = uid then
      if add_to_total then
        { u with balance := u.balance + amount,
                 total_deposited := u.total_deposited + amount }
      else
        { u with balance := u.balance + amount }
    else u)
  (true, { s with users := users })

/-- `get_user_balance_info(pool, user_id)`: `(balance, total_deposited)` of
the matching row, or `None` when the user does not exist.  (The source's
`float(x) if x else 0.00` coercion maps a falsy `0` to `0.00`, the same
value, so it is the identity here.) -/
def get_user_balance_info (s : DB) (uid : Int) : Option (Int × Int) :=
  (s.users.find? (fun u => u.user_id = uid)).map (fun u => (u.balance, u.total_deposited))

/-- `get_user_by_referral_code(pool, referral_code)`: the `users` row whose
`referral_code` equals the argument. -/
def get_user_by_referral_code (s : DB) (code : String) : Option UserRow :=
  s.users.find? (fun u => u.referral_code = some code)

/-- `process_referral(pool, new_user_id, referral_code)`: attribute a new
account to a referrer.  Checks, in source order: the target row exists; its
`referral_by` is not already truthy; its `created_at` (when present) is at
most one minute before `now`; the code resolves to a referrer; the referrer
is not the target itself.  On success sets `referral_by` and credits the
referrer's balance with the fixed 10.00 bonus via `update_user_balance`
with `add_to_total = False`.  (The best-effort bot notification has no
database effect and is omitted.) -/
def process_referral (s : DB) (now : Int) (new_user_id : Int) (referral_code : String) :
    Bool × DB :=
  match s.users.find? (fun u => u.user_id = new_user_id) with
  | none => (false, s)
  | some user_info =>
    if intTruthy user_info.referral_by then (false, s)
    else if staleCreation now user_info.created_at then (false, s)
    else
      match get_user_by_referral_code s referral_code with
      | none => (false, s)
      | some referrer =>
        if referrer.user_id = new_user_id then (false, s)
        else
          let s1 := { s with users := s.users.map (fun u =>
            if u.user_id = new_user_id then { u with referral_by := some referrer.user_id }
            else u) }
          (true, (update_user_balance s1 referrer.user_id 10 false).2)

/-! ## Account operations (`db.py`) -/

/-- The `users` row inserted for a new account: the freshly generated
token, zero balances, default flags, `created_at := now`. -/
def freshUserRow (uid : Int) (username name : Option String) (tok : String)
    (now : Int) : UserRow :=
  { user_id := uid, username := username, name := name, token := some tok,
    is_premium := false, balance := 0, total_deposited := 0,
    referral_code := none, referral_by := none, created_at := some now }

/-- `get_or_create_user(pool, user_id, username, name, referral_code)`:
if a row with `user_id` exists, refresh `username`/`name` when changed and
return `(stored token, False)`; otherwise insert a new row with a freshly
generated token (`generate_token()` is random, modelled by the explicit
`fresh_token` parameter), zero balances and default flags, and return
`(fresh_token, True)`.  The `referral_code` parameter is accepted but never
used by the source function (referral processing is a separate call). -/
def get_or_create_user (s : DB) (now : Int) (uid : Int)
    (username name : Option String) (fresh_token : String)
    (referral_code : Option String) : (Option String × Bool) × DB :=
  match s.users.find? (fun u => u.user_id = uid) with
  | some row =>
      let s1 :=
        if row.username ≠ username ∨ row.name ≠ name then
          { s with users := s.users.map (fun u =>
              if u.user_id = uid then { u with username := username, name := name } else u) }
        else s
      ((row.token, false), s1)
  | none =>
      ((some fresh_token, true),
        { s with users := s.users ++ [freshUserRow uid username name fresh_token now] })

/-! ## Moderation operations (`db.py`) -/

/-- `is_user_banned(pool, user_id)`: if a `muted_users` row exists and its
`muted_until` is strictly after `now`, return `(True, muted_until)`;
otherwise delete the expired row (if any) and return `(False, None)`. -/
def is_user_banned (s : DB) (now : Int) (uid : Int) : (Bool × Option Int) × DB :=
  match s.muted_users.find? (fun r => r.user_id = uid) with
  | some row =>
      if row.muted_until > now then ((true, some row.muted_until), s)
      else
        ((false, none),
          { s with muted_users := s.muted_users.filter (fun r => ¬ r.user_id = uid) })
  | none => ((false, none), s)

/-! ## Payment operations (`db.py`) -/

/-- `create_payment(pool, user_id, amount, method, transaction_id,
merchant_data)`: reject with `None` — before touching the database — unless
`method` is the single accepted value `'balance'`; otherwise insert a
`pending` payment row and return its id. -/
def create_payment (s : DB) (uid : Int) (amount : Int) (method : String)
    (transaction_id merchant_data : Option String) : Option Nat × DB :=
  if method ≠ "balance" then (none, s)
  else
    let pid := s.next_payment_id
    let row : PaymentRow :=
      { id := pid, user_id := uid, amount := amount, method := method,
        status := "pending", transaction_id := transaction_id,
        merchant_data := merchant_data }
    (some pid, { s with payments := s.payments ++ [row], next_payment_id := pid + 1 })

/-! ## Subscription operations (`db.py`) -/

/-- The day count of each plan in `activate_subscription` (`None` for a
plan outside `VALID_PLANS`). -/
def days_for_plan : String → Option Int
  | "1_month" => some 30
  | "3_months" => some 90
  | "6_months" => some 180
  | "1_year" => some 365
  | _ => none

/-- The row selected by `ORDER BY end_date DESC LIMIT 1`: scan the rows and
keep the one with the largest `end_date`. -/
def pickLatest : Option SubRow → List SubRow → Option SubRow
  | acc, [] => acc
  | acc, r :: rest =>
      pickLatest
        (match acc with
         | none => some r
         | some best => if r.end_date > best.end_date then some r else some best)
        rest

/-- The user's most recent active subscription row (`SELECT id, end_date
FROM subscriptions WHERE user_id = $1 AND is_active = TRUE ORDER BY
end_date DESC LIMIT 1`). -/
def latestActiveSub (subs : List SubRow) (uid : Int) : Option SubRow :=
  pickLatest none (subs.filter (fun r => r.user_id = uid ∧ r.is_active = true))

/-- `UPDATE users SET is_premium = TRUE WHERE user_id = $1`. -/
def setPremium (users : List UserRow) (uid : Int) : List UserRow :=
  users.map (fun u => if u.user_id = uid then { u with is_premium := true } else u)

/-- The in-place `UPDATE subscriptions SET plan, end_date, start_date WHERE
id = $4` row transformer of `activate_subscription`. -/
def extendRow (subId : Nat) (plan : String) (startDate endDate : Int)
    (r : SubRow) : SubRow :=
  if r.id = subId then
    { r with plan := plan, start_date := startDate, end_date := endDate }
  else r

/-- The row inserted by `activate_subscription` when no active subscription
exists: window `[now, now + d days]`, active. -/
def newSubRow (sid : Nat) (uid : Int) (plan : String) (now d : Int) : SubRow :=
  { id := sid, user_id := uid, plan := plan, start_date := now,
    end_date := now + days d, is_active := true }

/-- `activate_subscription(pool, user_id, plan)`: reject an unknown plan;
otherwise read the most recent active subscription row.  If one exists and
its `end_date` is after `now`, update that row in place with
`start_date := old end_date` and `end_date := old end_date + plan days`;
if it exists but has expired, update it in place with the window
`[now, now + plan days]`; if none exists, insert a new active row with that
window.  In every successful case set the user's `is_premium` flag. -/
def activate_subscription (s : DB) (now : Int) (uid : Int) (plan : String) :
    (Bool × Option Nat) × DB :=
  match days_for_plan plan with
  | none => ((false, none), s)
  | some d =>
    match latestActiveSub s.subscriptions uid with
    | some sub =>
        let startDate := if sub.end_date > now then sub.end_date else now
        ((true, some sub.id),
          { s with
              subscriptions :=
                s.subscriptions.map (extendRow sub.id plan startDate (startDate + days d)),
              users := setPremium s.users uid })
    | none =>
        ((true, some s.next_subscription_id),
          { s with
              subscriptions :=
                s.subscriptions ++ [newSubRow s.next_subscription_id uid plan now d],
              next_subscription_id := s.next_subscription_id + 1,
              users := setPremium s.users uid })

/-! ## Helper lemmas -/

/-- `List.find?` returns the head of the filtered list. -/
theorem find?_eq_head?_filter {α : Type} (p : α → Bool) (l : List α) :
    l.find? p = (l.filter p).head? := by
  induction l with
  | nil => rfl
  | cons a t ih =>
      cases h : p a with
      | true => rw [List.find?_cons_of_pos _ h, List.filter_cons_of_pos h, List.head?_cons]
      | false =>
          rw [List.find?_cons_of_neg _ (by simp [h]), List.filter_cons_of_neg (by simp [h]), ih]

/-- Looking a user up by id commutes with a row update that never changes
`user_id`. -/
theorem find?_userId_map (l : List UserRow) (uid : Int) (f : UserRow → UserRow)
    (hf : ∀ u, (f u).user_id = u.user_id) :
    (l.map f).find? (fun u => u.user_id = uid)
      = (l.find? (fun u => u.user_id = uid)).map f := by
  rw [List.find?_map]
  have hp : ((fun u : UserRow => decide (u.user_id = uid)) ∘ f)
      = fun u : UserRow => decide (u.user_id = uid) := by
    funext u
    simp [hf]
  rw [hp]

/-- `update_user_balance` changes only the `user_id` of nobody: the row
update preserves the id column. -/
theorem update_user_balance_users (s : DB) (uid : Int) (amount : Int) (flag : Bool) :
    ((update_user_balance s uid amount flag).2).users
      = s.users.map (fun u =>
          if u.user_id = uid then
            if flag then
              { u with balance := u.balance + amount,
                       total_deposited := u.total_deposited + amount }
            else { u with balance := u.balance + amount }
          else u) := rfl

/-- Reading back the balance after `update_user_balance` on an existing
account: the balance moved by `amount`, `total_deposited` moved only when
the flag is set. -/
theorem get_user_balance_info_update (s : DB) (uid : Int) (b t amount : Int) (flag : Bool)
    (h : get_user_balance_info s uid = some (b, t)) :
    get_user_balance_info (update_user_balance s uid amount flag).2 uid
      = some (b + amount, if flag then t + amount else t) := by
  unfold get_user_balance_info at h ⊢
  rw [update_user_balance_users, find?_userId_map]
  · cases hf : s.users.find? (fun u => u.user_id = uid) with
    | none => rw [hf] at h; simp at h
    | some u0 =>
        rw [hf] at h
        have hid : u0.user_id = uid := by
          have := List.find?_some hf
          simpa using this
        simp only [Option.map_some', Option.some.injEq, Prod.mk.injEq] at h
        cases flag <;> simp [hid, h.1, h.2]
  · intro u
    by_cases hu : u.user_id = uid <;> cases flag <;> simp [hu]

/-! ## Witness fixtures: small concrete database states -/

/-- Concrete user row 1 (holds referral code `"CODE"`). -/
def wA : UserRow :=
  { user_id := 1, username := none, name := none, token := some "t1",
    is_premium := false, balance := 5, total_deposited := 2,
    referral_code := some "CODE", referral_by := none, created_at := some 0 }

/-- Concrete user row 2 (freshly created at time 100). -/
def wB : UserRow :=
  { user_id := 2, username := none, name := none, token := some "t2",
    is_premium := false, balance := 0, total_deposited := 0,
    referral_code := none, referral_by := none, created_at := some 100 }

/-- Concrete database with the two users above. -/
def wDB : DB := { emptyDB with users := [wA, wB] }

/-! ## Claim theorems -/

/-- Claim C9: for every user id, amount and method, if the method is not the
single accepted value `'balance'`, `create_payment` returns a rejection (no
payment id) and writes no payment row — the whole state, in particular the
payments table, is unchanged. -/
theorem create_payment_rejects_non_balance (s : DB) (uid : Int) (amount : Int)
    (method : String) (tid md : Option String) (h : method ≠ "balance") :
    create_payment s uid amount method tid md = (none, s) := by
  simp [create_payment, h]

/-- Witness for Claim C9 at a concrete input. -/
theorem create_payment_rejects_non_balance_witness :
    ("click" : String) ≠ "balance" ∧
      create_payment wDB 1 5000 "click" (some "tx") none = (none, wDB) :=
  ⟨by decide, create_payment_rejects_non_balance wDB 1 5000 "click" (some "tx") none (by decide)⟩

/-- Claim C10: crediting an account id with no `users` row silently succeeds
as a no-op — `update_user_balance` returns `True` and leaves the entire
state (so every existing account's balance and `total_deposited`)
unchanged, for every amount and flag value. -/
theorem update_user_balance_missing_user_noop (s : DB) (uid : Int) (amount : Int)
    (flag : Bool) (h : ∀ u ∈ s.users, u.user_id ≠ uid) :
    update_user_balance s uid amount flag = (true, s) := by
  unfold update_user_balance
  have hm : s.users.map (fun u =>
      if u.user_id = uid then
        if flag then
          { u with balance := u.balance + amount,
                   total_deposited := u.total_deposited + amount }
        else { u with balance := u.balance + amount }
      else u) = s.users := by
    conv_rhs => rw [← List.map_id s.users]
    exact List.map_congr_left (fun u hu => by simp [h u hu])
  rw [hm]

/-- Witness for Claim C10 at a concrete input. -/
theorem update_user_balance_missing_user_noop_witness :
    (∀ u ∈ wDB.users, u.user_id ≠ 7) ∧ update_user_balance wDB 7 100 true = (true, wDB) :=
  ⟨by decide, update_user_balance_missing_user_noop wDB 7 100 true (by decide)⟩

/-- Claim C4: for an existing account, `update_user_balance` adds its amount
to the balance always (and to `total_deposited` exactly when the flag is
set), and the scenario `credit(id, +100, total=false)` then
`credit(id, -30, total=false)` ends with balance `initial + 70` and
`total_deposited` unchanged.  Both calls return `True`. -/
theorem update_user_balance_conservation (s : DB) (uid : Int) (b t amount : Int)
    (flag : Bool) (h : get_user_balance_info s uid = some (b, t)) :
    (update_user_balance s uid amount flag).1 = true ∧
    get_user_balance_info (update_user_balance s uid amount flag).2 uid
      = some (b + amount, if flag then t + amount else t) ∧
    get_user_balance_info
        (update_user_balance (update_user_balance s uid 100 false).2 uid (-30) false).2 uid
      = some (b + 70, t) := by
  refine ⟨rfl, get_user_balance_info_update s uid b t amount flag h, ?_⟩
  have h1 := get_user_balance_info_update s uid b t 100 false h
  have h2 := get_user_balance_info_update _ uid (b + 100) t (-30) false (by simpa using h1)
  have : b + 100 + (-30) = b + 70 := by omega
  simpa [this] using h2

/-- Witness for Claim C4 at a concrete input. -/
theorem update_user_balance_conservation_witness :
    get_user_balance_info wDB 1 = some (5, 2) ∧
    ((update_user_balance wDB 1 (-3) true).1 = true ∧
     get_user_balance_info (update_user_balance wDB 1 (-3) true).2 1
       = some (5 + (-3), if true then 2 + (-3) else 2) ∧
     get_user_balance_info
         (update_user_balance (update_user_balance wDB 1 100 false).2 1 (-30) false).2 1
       = some (5 + 70, 2)) :=
  ⟨by decide, (update_user_balance_conservation wDB 1 5 2 (-3) true (by decide)).1,
    (update_user_balance_conservation wDB 1 5 2 (-3) true (by decide)).2⟩

/-- Claim C8: for a banned account, `is_user_banned` returns
`(True, muted_until)` while the stored `muted_until` is still in the future
of `now`, and once `now` has reached or passed `muted_until` it returns
`(False, None)` and deletes the ban row in the same call, so any subsequent
read (at any time) finds no ban record. -/
theorem is_user_banned_lazy_expiry (s : DB) (now now2 uid : Int) (row : MutedRow)
    (h : s.muted_users.find? (fun r => r.user_id = uid) = some row) :
    (now < row.muted_until →
      is_user_banned s now uid = ((true, some row.muted_until), s)) ∧
    (row.muted_until ≤ now →
      (is_user_banned s now uid).1 = (false, none) ∧
      ((is_user_banned s now uid).2).muted_users.find? (fun r => r.user_id = uid) = none ∧
      is_user_banned (is_user_banned s now uid).2 now2 uid
        = ((false, none), (is_user_banned s now uid).2)) := by
  constructor
  · intro hlt
    unfold is_user_banned
    rw [h]
    simp [hlt]
  · intro hle
    have hnl : ¬ (row.muted_until > now) := by omega
    have hcall : is_user_banned s now uid
        = ((false, none),
            { s with muted_users := s.muted_users.filter (fun r => ¬ r.user_id = uid) }) := by
      unfold is_user_banned
      rw [h]
      simp [hnl]
    have hfind : ({ s with muted_users :=
          s.muted_users.filter (fun r => ¬ r.user_id = uid) } : DB).muted_users.find?
        (fun r => r.user_id = uid) = none := by
      rw [List.find?_eq_none]
      intro x hx
      have := (List.mem_filter.mp hx).2
      simpa using this
    refine ⟨by rw [hcall], by rw [hcall]; exact hfind, ?_⟩
    rw [hcall]
    show is_user_banned
        ({ s with muted_users := s.muted_users.filter (fun r => ¬ r.user_id = uid) }) now2 uid
      = _
    unfold is_user_banned
    rw [hfind]

/-- Concrete database with one ban row for user 5. -/
def wBan : DB := { emptyDB with muted_users := [⟨5, 1000, some "spam"⟩] }

/-- Witness for Claim C8 at concrete inputs, exercising both the active-ban
branch and the lazy-expiry branch. -/
theorem is_user_banned_lazy_expiry_witness :
    is_user_banned wBan 500 5 = ((true, some 1000), wBan) ∧
    ((is_user_banned wBan 1500 5).1 = (false, none) ∧
     ((is_user_banned wBan 1500 5).2).muted_users.find? (fun r => r.user_id = 5) = none ∧
     is_user_banned (is_user_banned wBan 1500 5).2 9999 5
       = ((false, none), (is_user_banned wBan 1500 5).2)) :=
  ⟨(is_user_banned_lazy_expiry wBan 500 9999 5 ⟨5, 1000, some "spam"⟩ (by decide)).1
      (by decide),
   (is_user_banned_lazy_expiry wBan 1500 9999 5 ⟨5, 1000, some "spam"⟩ (by decide)).2
      (by decide)⟩

/-- Claim C7: `get_or_create_user` is idempotent on the token — when no
account with the external id exists, the first call returns the freshly
minted token with `is_new = true`, and a second call (with any updated
display fields, any other candidate token, and any referral-code argument,
which the source function ignores) returns the same stored token with
`is_new = false`. -/
theorem get_or_create_user_token_idempotent (s : DB) (now1 now2 uid : Int)
    (un1 nm1 un2 nm2 : Option String) (tok1 tok2 : String) (rc1 rc2 : Option String)
    (h : s.users.find? (fun u => u.user_id = uid) = none) :
    (get_or_create_user s now1 uid un1 nm1 tok1 rc1).1 = (some tok1, true) ∧
    (get_or_create_user (get_or_create_user s now1 uid un1 nm1 tok1 rc1).2
        now2 uid un2 nm2 tok2 rc2).1 = (some tok1, false) := by
  have hfst : (get_or_create_user s now1 uid un1 nm1 tok1 rc1).1 = (some tok1, true) := by
    unfold get_or_create_user
    rw [h]
  have hsnd : (get_or_create_user s now1 uid un1 nm1 tok1 rc1).2
      = { s with users := s.users ++ [freshUserRow uid un1 nm1 tok1 now1] } := by
    unfold get_or_create_user
    rw [h]
  refine ⟨hfst, ?_⟩
  rw [hsnd]
  have hfind : ({ s with users := s.users ++ [freshUserRow uid un1 nm1 tok1 now1] } : DB).users.find?
      (fun u => u.user_id = uid) = some (freshUserRow uid un1 nm1 tok1 now1) := by
    show (s.users ++ [freshUserRow uid un1 nm1 tok1 now1]).find? _ = _
    rw [List.find?_append, h]
    simp [freshUserRow]
  unfold get_or_create_user
  rw [hfind]
  simp [freshUserRow]

/-- Witness for Claim C7 at a concrete input. -/
theorem get_or_create_user_token_idempotent_witness :
    emptyDB.users.find? (fun u => u.user_id = 9) = none ∧
    ((get_or_create_user emptyDB 50 9 (some "un") (some "nm") "TOK" none).1
        = (some "TOK", true) ∧
     (get_or_create_user (get_or_create_user emptyDB 50 9 (some "un") (some "nm") "TOK" none).2
        60 9 (some "un2") (some "nm2") "TOK2" (some "RC")).1 = (some "TOK", false)) :=
  ⟨by decide,
   get_or_create_user_token_idempotent emptyDB 50 60 9 (some "un") (some "nm")
     (some "un2") (some "nm2") "TOK" "TOK2" none (some "RC") (by decide)⟩

/-- A row map that preserves `user_id` and preserves the balance columns of
every row of the looked-up account leaves `get_user_balance_info`
unchanged. -/
theorem get_user_balance_info_map (s : DB) (uid : Int) (f : UserRow → UserRow)
    (hid : ∀ x, (f x).user_id = x.user_id)
    (hbal : ∀ x, x.user_id = uid →
      (f x).balance = x.balance ∧ (f x).total_deposited = x.total_deposited) :
    get_user_balance_info ({ s with users := s.users.map f }) uid
      = get_user_balance_info s uid := by
  unfold get_user_balance_info
  show ((s.users.map f).find? _).map _ = _
  rw [find?_userId_map _ _ _ hid]
  cases hf : s.users.find? (fun x => x.user_id = uid) with
  | none => rfl
  | some u0 =>
      have hid0 : u0.user_id = uid := by simpa using List.find?_some hf
      simp [Option.map_some', (hbal u0 hid0).1, (hbal u0 hid0).2]

/-- Claim C3: referral attribution fires exactly once and never touches
`total_deposited` — for a newly created account (fresh `created_at`, no
`referral_by`) and a code resolving to a distinct referrer with a nonzero
platform id, the first `process_referral` returns `True` and raises the
referrer's balance by exactly the fixed 10-unit bonus with
`total_deposited` unchanged, and a second call (at any later time) returns
`False` and changes no state. -/
theorem process_referral_fires_once (s : DB) (now now2 new_id : Int) (code : String)
    (u ref : UserRow) (b t : Int)
    (h1 : s.users.find? (fun x => x.user_id = new_id) = some u)
    (h2 : u.referral_by = none)
    (h3 : staleCreation now u.created_at = false)
    (h4 : get_user_by_referral_code s code = some ref)
    (h5 : ref.user_id ≠ new_id)
    (h6 : ref.user_id ≠ 0)
    (h7 : get_user_balance_info s ref.user_id = some (b, t)) :
    (process_referral s now new_id code).1 = true ∧
    get_user_balance_info (process_referral s now new_id code).2 ref.user_id
      = some (b + 10, t) ∧
    process_referral (process_referral s now new_id code).2 now2 new_id code
      = (false, (process_referral s now new_id code).2) := by
  have hu_id : u.user_id = new_id := by simpa using List.find?_some h1
  have hcall : process_referral s now new_id code
      = (true, (update_user_balance
          ({ s with users := s.users.map (fun x =>
              if x.user_id = new_id then { x with referral_by := some ref.user_id } else x) })
          ref.user_id 10 false).2) := by
    unfold process_referral
    rw [h1, h4]
    simp [h2, h3, h5, intTruthy]
  have hb1 : get_user_balance_info ({ s with users := s.users.map (fun x =>
      if x.user_id = new_id then { x with referral_by := some ref.user_id } else x) })
      ref.user_id = some (b, t) := by
    rw [get_user_balance_info_map, h7]
    · intro x
      by_cases hx : x.user_id = new_id <;> simp [hx]
    · intro x hx
      have hxne : ¬ x.user_id = new_id := by rw [hx]; exact h5
      simp [hxne]
  have hb2 := get_user_balance_info_update
    ({ s with users := s.users.map (fun x =>
        if x.user_id = new_id then { x with referral_by := some ref.user_id } else x) })
    ref.user_id b t 10 false hb1
  have hfind2 : ((update_user_balance
      ({ s with users := s.users.map (fun x =>
          if x.user_id = new_id then { x with referral_by := some ref.user_id } else x) })
      ref.user_id 10 false).2).users.find? (fun x => x.user_id = new_id)
      = some { u with referral_by := some ref.user_id } := by
    rw [update_user_balance_users]
    show ((s.users.map _).map _).find? _ = _
    rw [find?_userId_map, find?_userId_map, h1]
    · have hne : ¬ new_id = ref.user_id := fun hc => h5 hc.symm
      simp [Option.map_some', hu_id, hne]
    · intro x
      by_cases hx : x.user_id = new_id <;> simp [hx]
    · intro x
      by_cases hx : x.user_id = ref.user_id <;> simp [hx]
  have hsecond : process_referral ((update_user_balance
      ({ s with users := s.users.map (fun x =>
          if x.user_id = new_id then { x with referral_by := some ref.user_id } else x) })
      ref.user_id 10 false).2) now2 new_id code
      = (false, (update_user_balance
          ({ s with users := s.users.map (fun x =>
              if x.user_id = new_id then { x with referral_by := some ref.user_id } else x) })
          ref.user_id 10 false).2) := by
    unfold process_referral
    rw [hfind2]
    have htr : intTruthy ({ u with referral_by := some ref.user_id } : UserRow).referral_by
        = true := by
      simp [intTruthy, h6]
    simp [htr]
  refine ⟨by rw [hcall], ?_, ?_⟩
  · rw [hcall]
    simpa using hb2
  · rw [hcall]
    exact hsecond

/-- Witness for Claim C3 at a concrete input: user 2 was freshly created and
uses user 1's code; user 1's balance rises from 5 to 15 exactly once while
`total_deposited` stays 2. -/
theorem process_referral_fires_once_witness :
    (process_referral wDB 130 2 "CODE").1 = true ∧
    get_user_balance_info (process_referral wDB 130 2 "CODE").2 wA.user_id
      = some (5 + 10, 2) ∧
    process_referral (process_referral wDB 130 2 "CODE").2 500 2 "CODE"
      = (false, (process_referral wDB 130 2 "CODE").2) :=
  process_referral_fires_once wDB 130 500 2 "CODE" wB wA 5 2 (by decide) (by decide)
    (by decide) (by decide) (by decide) (by decide) (by decide)

/-- When an account has no session rows, the session lookup finds
nothing. -/
theorem find?_touches_eq_none (s : DB) (uid : Int) (h : sessionsOf s uid = []) :
    s.chat_connections.find? (fun c => touches c uid) = none := by
  rw [List.find?_eq_none]
  intro x hx
  unfold sessionsOf at h
  have := List.filter_eq_nil_iff.mp h x hx
  simpa using this

/-- Claim C5: from a state whose queue holds exactly account 42 and where
neither 42 nor 99 is in any session, `find_chat_partner` called by 99
returns `(true, 42)` (whatever randomness is drawn); afterwards
`get_chat_partner` answers 99 for 42 and 42 for 99 (lookup works from
either side of the stored pair), and `add_to_chat_queue` called by 42 is
rejected with `already_in_chat`. -/
theorem pairing_scenario (s : DB) (r : Nat)
    (hq : s.chat_queue = [42])
    (h42 : sessionsOf s 42 = [])
    (h99 : sessionsOf s 99 = []) :
    (find_chat_partner s 99 r).1 = (true, some 42) ∧
    get_chat_partner (find_chat_partner s 99 r).2 42 = some 99 ∧
    get_chat_partner (find_chat_partner s 99 r).2 99 = some 42 ∧
    (add_to_chat_queue (find_chat_partner s 99 r).2 42).1 = (false, "already_in_chat") := by
  have hcand : s.chat_queue.filter (fun x => ¬ x = (99 : Int)) = [42] := by
    rw [hq]
    decide
  have hcall : find_chat_partner s 99 r
      = ((true, some 42),
          { s with chat_queue := s.chat_queue.filter (fun x => ¬ (x = 99 ∨ x = 42)),
                   chat_connections := s.chat_connections ++ [⟨99, 42⟩] }) := by
    unfold find_chat_partner
    simp only [hcand, List.length_cons, List.length_nil, Nat.zero_add, Nat.mod_one,
      List.get?_cons_zero]
  have hconn : ((find_chat_partner s 99 r).2).chat_connections
      = s.chat_connections ++ [⟨99, 42⟩] := by
    rw [hcall]
  have hfind42 : (s.chat_connections ++ [(⟨99, 42⟩ : ChatConn)]).find?
      (fun c => touches c 42) = some ⟨99, 42⟩ := by
    rw [List.find?_append, find?_touches_eq_none s 42 h42]
    simp [touches]
  have hfind99 : (s.chat_connections ++ [(⟨99, 42⟩ : ChatConn)]).find?
      (fun c => touches c 99) = some ⟨99, 42⟩ := by
    rw [List.find?_append, find?_touches_eq_none s 99 h99]
    simp [touches]
  refine ⟨by rw [hcall], ?_, ?_, ?_⟩
  · unfold get_chat_partner
    rw [hconn, hfind42]
    decide
  · unfold get_chat_partner
    rw [hconn, hfind99]
    decide
  · unfold add_to_chat_queue
    rw [hconn]
    have hany : (s.chat_connections ++ [(⟨99, 42⟩ : ChatConn)]).any
        (fun c => touches c 42) = true := by
      rw [List.any_eq_true]
      exact ⟨⟨99, 42⟩, List.mem_append_right _ (by decide), by simp [touches]⟩
    rw [hany]
    simp

/-- Concrete chat state: queue `[42]`, one unrelated session `(7, 8)`. -/
def wChat : DB := { emptyDB with chat_queue := [42], chat_connections := [⟨7, 8⟩] }

/-- Witness for Claim C5 at a concrete input. -/
theorem pairing_scenario_witness :
    (find_chat_partner wChat 99 3).1 = (true, some 42) ∧
    get_chat_partner (find_chat_partner wChat 99 3).2 42 = some 99 ∧
    get_chat_partner (find_chat_partner wChat 99 3).2 99 = some 42 ∧
    (add_to_chat_queue (find_chat_partner wChat 99 3).2 42).1 = (false, "already_in_chat") :=
  pairing_scenario wChat 3 (by decide) (by decide) (by decide)

/-- Claim C6: for an account that is a party to exactly one active session,
the first `end_chat` returns `(true, partner)` and deletes the session in
both orientations (and nothing else), after which the account has no
session left; the second call returns `(false, none)` and changes
nothing. -/
theorem end_chat_idempotent (s : DB) (uid : Int) (c : ChatConn)
    (h : sessionsOf s uid = [c]) :
    (end_chat s uid).1 = (true, some (partnerIn c uid)) ∧
    ((end_chat s uid).2).chat_connections
      = s.chat_connections.filter (fun d => ¬ betweenPair d uid (partnerIn c uid)) ∧
    sessionsOf (end_chat s uid).2 uid = [] ∧
    end_chat (end_chat s uid).2 uid = ((false, none), (end_chat s uid).2) := by
  have hfind : s.chat_connections.find? (fun d => touches d uid) = some c := by
    rw [find?_eq_head?_filter]
    show (sessionsOf s uid).head? = some c
    rw [h]
    rfl
  have htc : touches c uid := by
    have := List.find?_some hfind
    simpa using this
  have hcall : end_chat s uid
      = ((true, some (partnerIn c uid)),
          { s with chat_connections :=
              s.chat_connections.filter (fun d => ¬ betweenPair d uid (partnerIn c uid)) }) := by
    unfold end_chat
    rw [hfind]
  have hnil : sessionsOf (end_chat s uid).2 uid = [] := by
    rw [hcall]
    unfold sessionsOf
    show (s.chat_connections.filter _).filter _ = []
    rw [List.filter_filter, List.filter_eq_nil_iff]
    intro d hd
    simp only [Bool.and_eq_true, decide_eq_true_eq, not_and]
    intro hto hkeep
    have hdc : d = c := by
      have : d ∈ sessionsOf s uid := by
        unfold sessionsOf
        rw [List.mem_filter]
        exact ⟨hd, by simpa using hto⟩
      rw [h] at this
      simpa using this
    subst hdc
    by_cases hc1 : d.user1_id = uid
    · exact hkeep (Or.inl ⟨hc1, by unfold partnerIn; rw [if_pos hc1]⟩)
    · have hc2 : d.user2_id = uid := by
        rcases htc with h1 | h2
        · exact absurd h1 hc1
        · exact h2
      exact hkeep (Or.inr ⟨by unfold partnerIn; rw [if_neg hc1], hc2⟩)
  have h2nd : (end_chat s uid).2
      = ({ s with chat_connections :=
            s.chat_connections.filter (fun d => ¬ betweenPair d uid (partnerIn c uid)) } : DB) := by
    rw [hcall]
  refine ⟨by rw [hcall], by rw [h2nd], hnil, ?_⟩
  rw [h2nd] at hnil ⊢
  have hfind2 := find?_touches_eq_none _ uid hnil
  unfold end_chat
  rw [hfind2]

/-- Concrete chat state with two sessions, `(7, 8)` and `(3, 4)`. -/
def wChat2 : DB := { emptyDB with chat_connections := [⟨7, 8⟩, ⟨3, 4⟩] }

/-- Witness for Claim C6 at a concrete input. -/
theorem end_chat_idempotent_witness :
    (end_chat wChat2 3).1 = (true, some (partnerIn ⟨3, 4⟩ 3)) ∧
    ((end_chat wChat2 3).2).chat_connections
      = wChat2.chat_connections.filter (fun d => ¬ betweenPair d 3 (partnerIn ⟨3, 4⟩ 3)) ∧
    sessionsOf (end_chat wChat2 3).2 3 = [] ∧
    end_chat (end_chat wChat2 3).2 3 = ((false, none), (end_chat wChat2 3).2) :=
  end_chat_idempotent wChat2 3 ⟨3, 4⟩ (by decide)

/-- `pickLatest` never loses a row it has already selected. -/
theorem pickLatest_ne_none (b : SubRow) (l : List SubRow) :
    pickLatest (some b) l ≠ none := by
  induction l generalizing b with
  | nil => simp [pickLatest]
  | cons r rest ih =>
      unfold pickLatest
      by_cases hc : r.end_date > b.end_date
      · simpa [hc] using ih r
      · simpa [hc] using ih b

/-- When `latestActiveSub` reports no active subscription, the user really
has no active subscription rows. -/
theorem latestActiveSub_none (subs : List SubRow) (uid : Int)
    (h : latestActiveSub subs uid = none) :
    subs.filter (fun r => r.user_id = uid ∧ r.is_active = true) = [] := by
  unfold latestActiveSub at h
  cases hf : subs.filter (fun r => r.user_id = uid ∧ r.is_active = true) with
  | nil => rfl
  | cons a t =>
      rw [hf] at h
      unfold pickLatest at h
      exact absurd h (pickLatest_ne_none a t)

/-- Appending one matching row to a list with no matching rows makes it the
most recent active subscription. -/
theorem latestActiveSub_append_single (subs : List SubRow) (uid : Int) (row : SubRow)
    (h : subs.filter (fun r => r.user_id = uid ∧ r.is_active = true) = [])
    (hrow : row.user_id = uid) (hact : row.is_active = true) :
    latestActiveSub (subs ++ [row]) uid = some row := by
  unfold latestActiveSub
  rw [List.filter_append, h]
  simp [hrow, hact, pickLatest]

/-- `extendRow` touches neither `user_id` nor `is_active`, so the
active-rows filter commutes with it. -/
theorem filter_active_map_extendRow (l : List SubRow) (uid : Int) (subId : Nat)
    (plan : String) (sd ed : Int) :
    (l.map (extendRow subId plan sd ed)).filter
        (fun r => r.user_id = uid ∧ r.is_active = true)
      = (l.filter (fun r => r.user_id = uid ∧ r.is_active = true)).map
          (extendRow subId plan sd ed) := by
  rw [List.filter_map]
  congr 1
  apply List.filter_congr
  intro r hr
  by_cases hc : r.id = subId <;> simp [extendRow, hc]

/-- The branch of `activate_subscription` that extends a still-running
subscription in place. -/
theorem activate_subscription_extend_eq (s : DB) (now uid : Int) (plan : String)
    (d : Int) (sub : SubRow)
    (hplan : days_for_plan plan = some d)
    (hsub : latestActiveSub s.subscriptions uid = some sub)
    (hfut : sub.end_date > now) :
    activate_subscription s now uid plan
      = ((true, some sub.id),
          { s with
              subscriptions :=
                s.subscriptions.map (extendRow sub.id plan sub.end_date (sub.end_date + days d)),
              users := setPremium s.users uid }) := by
  unfold activate_subscription
  rw [hplan, hsub]
  simp [hfut]

/-- The branch of `activate_subscription` that inserts a fresh subscription
row. -/
theorem activate_subscription_create_eq (s : DB) (now uid : Int) (plan : String)
    (d : Int)
    (hplan : days_for_plan plan = some d)
    (hnone : latestActiveSub s.subscriptions uid = none) :
    activate_subscription s now uid plan
      = ((true, some s.next_subscription_id),
          { s with
              subscriptions :=
                s.subscriptions ++ [newSubRow s.next_subscription_id uid plan now d],
              next_subscription_id := s.next_subscription_id + 1,
              users := setPremium s.users uid }) := by
  unfold activate_subscription
  rw [hplan, hnone]

/-- Claim C2: subscription extension is time-additive and contiguous — if
the account's most recent active subscription still ends in the future,
activating a plan of `d` days succeeds with the same subscription id and
rewrites that row in place to `start_date := old end_date` and
`end_date := old end_date + d` days (all other rows untouched by
`extendRow`); consequently buying the 30-day plan at `t1` with no active
subscription and again at any `t2` before `t1 + 30` days leaves the same
row with `start_date = t1 + 30` days and `end_date = t1 + 60` days — never
`t1 + 30` and never a double-counted window. -/
theorem activate_subscription_time_additive (s : DB) (uid now t1 t2 d : Int)
    (plan : String) (sub : SubRow) :
    (days_for_plan plan = some d → latestActiveSub s.subscriptions uid = some sub →
      sub.end_date > now →
      (activate_subscription s now uid plan).1 = (true, some sub.id) ∧
      ((activate_subscription s now uid plan).2).subscriptions
        = s.subscriptions.map (extendRow sub.id plan sub.end_date (sub.end_date + days d))) ∧
    (latestActiveSub s.subscriptions uid = none → t2 < t1 + days 30 →
      latestActiveSub
          ((activate_subscription ((activate_subscription s t1 uid "1_month").2) t2 uid
              "1_month").2).subscriptions uid
        = some { id := s.next_subscription_id, user_id := uid, plan := "1_month",
                 start_date := t1 + days 30, end_date := t1 + days 60, is_active := true }) := by
  constructor
  · intro hplan hsub hfut
    rw [activate_subscription_extend_eq s now uid plan d sub hplan hsub hfut]
    exact ⟨rfl, rfl⟩
  · intro hnone hlt
    have hfil := latestActiveSub_none s.subscriptions uid hnone
    have hs1 : (activate_subscription s t1 uid "1_month").2
        = { s with
              subscriptions :=
                s.subscriptions ++ [newSubRow s.next_subscription_id uid "1_month" t1 30],
              next_subscription_id := s.next_subscription_id + 1,
              users := setPremium s.users uid } := by
      rw [activate_subscription_create_eq s t1 uid "1_month" 30 rfl hnone]
    rw [hs1]
    have hlat1 : latestActiveSub
        (s.subscriptions ++ [newSubRow s.next_subscription_id uid "1_month" t1 30]) uid
        = some (newSubRow s.next_subscription_id uid "1_month" t1 30) :=
      latestActiveSub_append_single _ _ _ hfil rfl rfl
    have hfut2 : (newSubRow s.next_subscription_id uid "1_month" t1 30).end_date > t2 := hlt
    have hs2 : (activate_subscription
        ({ s with
            subscriptions :=
              s.subscriptions ++ [newSubRow s.next_subscription_id uid "1_month" t1 30],
            next_subscription_id := s.next_subscription_id + 1,
            users := setPremium s.users uid } : DB) t2 uid "1_month").2
        = { s with
              subscriptions :=
                (s.subscriptions ++ [newSubRow s.next_subscription_id uid "1_month" t1 30]).map
                  (extendRow (newSubRow s.next_subscription_id uid "1_month" t1 30).id "1_month"
                    (newSubRow s.next_subscription_id uid "1_month" t1 30).end_date
                    ((newSubRow s.next_subscription_id uid "1_month" t1 30).end_date + days 30)),
              next_subscription_id := s.next_subscription_id + 1,
              users := setPremium (setPremium s.users uid) uid } := by
      rw [activate_subscription_extend_eq _ t2 uid "1_month" 30
        (newSubRow s.next_subscription_id uid "1_month" t1 30) rfl hlat1 hfut2]
    rw [hs2]
    show latestActiveSub
        ((s.subscriptions ++ [newSubRow s.next_subscription_id uid "1_month" t1 30]).map
          (extendRow (newSubRow s.next_subscription_id uid "1_month" t1 30).id "1_month"
            (newSubRow s.next_subscription_id uid "1_month" t1 30).end_date
            ((newSubRow s.next_subscription_id uid "1_month" t1 30).end_date + days 30))) uid
      = _
    rw [List.map_append]
    have hfilmap : ((s.subscriptions).map
        (extendRow (newSubRow s.next_subscription_id uid "1_month" t1 30).id "1_month"
          (newSubRow s.next_subscription_id uid "1_month" t1 30).end_date
          ((newSubRow s.next_subscription_id uid "1_month" t1 30).end_date + days 30))).filter
        (fun r => r.user_id = uid ∧ r.is_active = true) = [] := by
      rw [filter_active_map_extendRow, hfil]
      rfl
    have := latestActiveSub_append_single
      ((s.subscriptions).map
        (extendRow (newSubRow s.next_subscription_id uid "1_month" t1 30).id "1_month"
          (newSubRow s.next_subscription_id uid "1_month" t1 30).end_date
          ((newSubRow s.next_subscription_id uid "1_month" t1 30).end_date + days 30)))
      uid
      (extendRow (newSubRow s.next_subscription_id uid "1_month" t1 30).id "1_month"
          (newSubRow s.next_subscription_id uid "1_month" t1 30).end_date
          ((newSubRow s.next_subscription_id uid "1_month" t1 30).end_date + days 30)
          (newSubRow s.next_subscription_id uid "1_month" t1 30))
      hfilmap (by simp [extendRow, newSubRow]) (by simp [extendRow, newSubRow])
    rw [show (List.map
          (extendRow (newSubRow s.next_subscription_id uid "1_month" t1 30).id "1_month"
            (newSubRow s.next_subscription_id uid "1_month" t1 30).end_date
            ((newSubRow s.next_subscription_id uid "1_month" t1 30).end_date + days 30))
          [newSubRow s.next_subscription_id uid "1_month" t1 30])
        = [extendRow (newSubRow s.next_subscription_id uid "1_month" t1 30).id "1_month"
            (newSubRow s.next_subscription_id uid "1_month" t1 30).end_date
            ((newSubRow s.next_subscription_id uid "1_month" t1 30).end_date + days 30)
            (newSubRow s.next_subscription_id uid "1_month" t1 30)] from rfl]
    rw [this]
    simp [extendRow, newSubRow, days, SubRow.mk.injEq]
    omega

/-- Concrete active subscription row for the C2 witness. -/
def wSubRow : SubRow :=
  { id := 4, user_id := 1, plan := "1_month", start_date := 0,
    end_date := 1000, is_active := true }

/-- Concrete database with one active subscription for user 1. -/
def wSub : DB := { emptyDB with subscriptions := [wSubRow], next_subscription_id := 5 }

/-- Witness for Claim C2 at concrete inputs, exercising both the in-place
extension branch and the create-then-extend double purchase. -/
theorem activate_subscription_time_additive_witness :
    ((activate_subscription wSub 500 1 "1_month").1 = (true, some 4) ∧
     ((activate_subscription wSub 500 1 "1_month").2).subscriptions
       = wSub.subscriptions.map (extendRow 4 "1_month" 1000 (1000 + days 30))) ∧
    latestActiveSub
        ((activate_subscription ((activate_subscription emptyDB 100 1 "1_month").2) 200 1
            "1_month").2).subscriptions 1
      = some { id := 1, user_id := 1, plan := "1_month",
               start_date := 100 + days 30, end_date := 100 + days 60, is_active := true } :=
  ⟨(activate_subscription_time_additive wSub 1 500 0 0 30 "1_month" wSubRow).1
      (by decide) (by decide) (by decide),
   (activate_subscription_time_additive emptyDB 1 0 100 200 30 "1_month" wSubRow).2
      (by decide) (by decide)⟩

/-- If the store's session-membership test is false, the account's session
list is empty. -/
theorem sessionsOf_eq_nil_of_any_false (s : DB) (uid : Int)
    (h : s.chat_connections.any (fun c => touches c uid) = false) :
    sessionsOf s uid = [] := by
  unfold sessionsOf
  rw [List.filter_eq_nil_iff]
  intro c hc hp
  have htrue : s.chat_connections.any (fun c => touches c uid) = true :=
    List.any_eq_true.mpr ⟨c, hc, hp⟩
  rw [h] at htrue
  cases htrue

/-- `add_to_chat_queue` preserves the pairing invariant. -/
theorem chatInvariant_join (s : DB) (uid : Int) (h : ChatInvariant s) :
    ChatInvariant (add_to_chat_queue s uid).2 := by
  obtain ⟨hA, hB, hC⟩ := h
  unfold add_to_chat_queue
  cases h1 : s.chat_connections.any (fun c => touches c uid) with
  | true => exact ⟨hA, hB, hC⟩
  | false =>
      cases h2 : s.chat_queue.any (fun x => x = uid) with
      | true => exact ⟨hA, hB, hC⟩
      | false =>
          show ChatInvariant ({ s with chat_queue := s.chat_queue ++ [uid] })
          refine ⟨hA, ?_, ?_⟩
          · intro x hx
            rcases List.mem_append.mp hx with hxl | hxr
            · exact hB x hxl
            · have hxu : x = uid := by simpa using hxr
              subst hxu
              exact sessionsOf_eq_nil_of_any_false s x h1
          · show (s.chat_queue ++ [uid]).Nodup
            rw [List.nodup_append]
            refine ⟨hC, by simp, ?_⟩
            intro x hx hx'
            have hxu : x = uid := by simpa using hx'
            subst hxu
            have := List.any_eq_false.mp h2 x hx
            simp at this

/-- `find_chat_partner` preserves the pairing invariant provided the caller
is not already a party to a session (the discipline the `/find_chat`
handler enforces by joining the queue first). -/
theorem chatInvariant_findp (s : DB) (uid : Int) (r : Nat) (h : ChatInvariant s)
    (hg : inSessionB s uid = false) :
    ChatInvariant (find_chat_partner s uid r).2 := by
  obtain ⟨hA, hB, hC⟩ := h
  unfold find_chat_partner
  cases hget : (s.chat_queue.filter (fun x => ¬ x = uid)).get?
      (r % (s.chat_queue.filter (fun x => ¬ x = uid)).length) with
  | none =>
      simp only [hget]
      exact ⟨hA, hB, hC⟩
  | some pid =>
      have hmem : pid ∈ s.chat_queue.filter (fun x => ¬ x = uid) := List.get?_mem hget
      have hpq : pid ∈ s.chat_queue := (List.mem_filter.mp hmem).1
      have hpneq : ¬ pid = uid := by simpa using (List.mem_filter.mp hmem).2
      have huid_nil : List.filter (fun c => touches c uid) s.chat_connections = [] :=
        sessionsOf_eq_nil_of_any_false s uid (by simpa [inSessionB] using hg)
      have hpid_nil : List.filter (fun c => touches c pid) s.chat_connections = [] :=
        hB pid hpq
      simp only [hget]
      show ChatInvariant
        ({ s with
            chat_queue := s.chat_queue.filter (fun x => ¬ (x = uid ∨ x = pid)),
            chat_connections := s.chat_connections ++ [⟨uid, pid⟩] })
      refine ⟨?_, ?_, List.Nodup.filter _ hC⟩
      · intro w
        show (List.filter (fun c => touches c w)
          (s.chat_connections ++ [⟨uid, pid⟩])).length ≤ 1
        rw [List.filter_append, List.length_append]
        by_cases hw : touches (⟨uid, pid⟩ : ChatConn) w
        · have hwnil : List.filter (fun c => touches c w) s.chat_connections = [] := by
            rcases hw with h1 | h2
            · have huw : uid = w := h1
              rw [← huw]
              exact huid_nil
            · have hpw : pid = w := h2
              rw [← hpw]
              exact hpid_nil
          rw [hwnil]
          have : (List.filter (fun c => touches c w) [(⟨uid, pid⟩ : ChatConn)]).length ≤ 1 := by
            simpa using List.length_filter_le (fun c => decide (touches c w)) [⟨uid, pid⟩]
          simpa using this
        · have hone : List.filter (fun c => touches c w) [(⟨uid, pid⟩ : ChatConn)] = [] := by
            simp [hw]
          rw [hone]
          have hAw : (List.filter (fun c => touches c w) s.chat_connections).length ≤ 1 := hA w
          simpa using hAw
      · intro x hx
        have hx' := List.mem_filter.mp hx
        have hxq : x ∈ s.chat_queue := hx'.1
        have hxne : ¬ (x = uid ∨ x = pid) := by simpa using hx'.2
        show List.filter (fun c => touches c x) (s.chat_connections ++ [⟨uid, pid⟩]) = []
        rw [List.filter_append]
        have h1 : List.filter (fun c => touches c x) s.chat_connections = [] := hB x hxq
        have hne : ¬ touches (⟨uid, pid⟩ : ChatConn) x := by
          intro hh
          rcases hh with hh | hh
          · exact hxne (Or.inl hh.symm)
          · exact hxne (Or.inr hh.symm)
        rw [h1]
        simp [hne]

/-- `end_chat` preserves the pairing invariant: it only removes session
rows. -/
theorem chatInvariant_endc (s : DB) (uid : Int) (h : ChatInvariant s) :
    ChatInvariant (end_chat s uid).2 := by
  obtain ⟨hA, hB, hC⟩ := h
  unfold end_chat
  cases hf : s.chat_connections.find? (fun c => touches c uid) with
  | none =>
      simp only [hf]
      exact ⟨hA, hB, hC⟩
  | some c =>
      simp only [hf]
      show ChatInvariant
        ({ s with chat_connections :=
            s.chat_connections.filter (fun d => ¬ betweenPair d uid (partnerIn c uid)) })
      refine ⟨?_, ?_, hC⟩
      · intro w
        show (List.filter (fun d => touches d w)
          (s.chat_connections.filter (fun d => ¬ betweenPair d uid (partnerIn c uid)))).length ≤ 1
        have hAw : (List.filter (fun d => touches d w) s.chat_connections).length ≤ 1 := hA w
        have hsub := List.Sublist.filter (fun d => decide (touches d w))
          (List.filter_sublist (l := s.chat_connections)
            (p := fun d => decide (¬ betweenPair d uid (partnerIn c uid))))
        exact le_trans (List.Sublist.length_le hsub) hAw
      · intro x hx
        have hnil : List.filter (fun d => touches d x) s.chat_connections = [] := hB x hx
        show List.filter (fun d => touches d x)
          (s.chat_connections.filter (fun d => ¬ betweenPair d uid (partnerIn c uid))) = []
        have hsub := List.Sublist.filter (fun d => decide (touches d x))
          (List.filter_sublist (l := s.chat_connections)
            (p := fun d => decide (¬ betweenPair d uid (partnerIn c uid))))
        rw [hnil] at hsub
        exact List.sublist_nil.mp hsub

/-- `remove_from_chat_queue` preserves the pairing invariant. -/
theorem chatInvariant_leave (s : DB) (uid : Int) (h : ChatInvariant s) :
    ChatInvariant (remove_from_chat_queue s uid) := by
  obtain ⟨hA, hB, hC⟩ := h
  show ChatInvariant ({ s with chat_queue := s.chat_queue.filter (fun x => ¬ x = uid) })
  refine ⟨hA, ?_, List.Nodup.filter _ hC⟩
  intro x hx
  exact hB x (List.mem_filter.mp hx).1

/-- The pairing invariant is preserved along every guarded call
sequence. -/
theorem chatInvariant_runCalls (calls : List ChatCall) :
    ∀ s : DB, ChatInvariant s → guardedFrom s calls = true →
      ChatInvariant (runCalls s calls) := by
  induction calls with
  | nil => exact fun s hs _ => hs
  | cons c rest ih =>
      intro s hs hg
      unfold guardedFrom at hg
      rw [Bool.and_eq_true] at hg
      show ChatInvariant (runCalls (applyCall s c) rest)
      apply ih _ _ hg.2
      cases c with
      | join uid => exact chatInvariant_join s uid hs
      | findp uid r =>
          apply chatInvariant_findp s uid r hs
          simpa using hg.1
      | endc uid => exact chatInvariant_endc s uid hs
      | leave uid => exact chatInvariant_leave s uid hs

/-- Claim C1 counterexample: the invariant fails for unrestricted call
sequences.  From the empty store, `join 42; findp 99; join 7; findp 99` is
a sequence of the four pairing calls after which account 99 is a party to
two active sessions at once — `find_chat_partner` itself never checks
whether its caller is already in a session. -/
theorem pairing_exclusivity_counterexample :
    ¬ ((sessionsOf (runCalls emptyDB
        [.join 42, .findp 99 0, .join 7, .findp 99 0]) 99).length ≤ 1) := by
  decide

/-- Claim C1 (amended): in every state reachable from the empty store by
sequences of `add_to_chat_queue`, `find_chat_partner`, `end_chat` and
`remove_from_chat_queue` calls in which every `find_chat_partner` call is
made by an account not currently a party to a session (the discipline the
`/find_chat` handler enforces by requiring a successful `add_to_chat_queue`
first), every account is a party to at most one active session, no queued
account is a party to a session, and the queue holds at most one entry per
account. -/
theorem pairing_exclusivity_guarded (calls : List ChatCall)
    (hg : guardedFrom emptyDB calls = true) :
    ChatInvariant (runCalls emptyDB calls) := by
  apply chatInvariant_runCalls calls emptyDB _ hg
  refine ⟨fun w => ?_, fun x hx => ?_, ?_⟩
  · show (List.filter (fun c => touches c w) []).length ≤ 1
    simp
  · cases hx
  · show ([] : List Int).Nodup
    simp

/-- Witness for the amended Claim C1 on a concrete guarded call
sequence. -/
theorem pairing_exclusivity_guarded_witness :
    guardedFrom emptyDB [.join 42, .findp 99 0, .endc 99, .join 7] = true ∧
    ChatInvariant (runCalls emptyDB [.join 42, .findp 99 0, .endc 99, .join 7]) :=
  ⟨by decide, pairing_exclusivity_guarded _ (by decide)⟩
